import Mathlib

/-!
Verification of the core logic fragments of the Plumber data-engineering
assistant: the parameter validator, the job launch command builder, the log
query builders and the job-name sanitizer.  Texts produced or consumed by the
Python code are modelled as lists of characters; dictionaries as association
lists or structures with `Option` fields (`none` models an absent key).
-/

/-- Coerce a Lean string literal to the character-list representation used
throughout this development. -/
def str (s : String) : List Char := s.data

/-- The ASCII single-quote character, written via its code point. -/
def squote : Char := Char.ofNat 39

/-- The ASCII double-quote character, written via its code point. -/
def dquote : Char := Char.ofNat 34

/-- Model of Python `str.lower` on one character, restricted to ASCII: the
sanitizer's later steps replace every non-ASCII character by `-` either way,
so only the A–Z range is observable. -/
def pyLower (c : Char) : Char :=
  if 65 ≤ c.toNat ∧ c.toNat ≤ 90 then Char.ofNat (c.toNat + 32) else c

/-- Model of Python `str.upper` on one character, restricted to ASCII. -/
def pyUpper (c : Char) : Char :=
  if 97 ≤ c.toNat ∧ c.toNat ≤ 122 then Char.ofNat (c.toNat - 32) else c

/-- Lowercase ASCII letter test. -/
def isLowerAlphaB (c : Char) : Bool := decide (97 ≤ c.toNat ∧ c.toNat ≤ 122)

/-- ASCII digit test. -/
def isDigitB (c : Char) : Bool := decide (48 ≤ c.toNat ∧ c.toNat ≤ 57)

/-- Characters admitted by the job-name character class `[a-z0-9-]` of
`_sanitize_job_name` (`re.sub(r'[^a-z0-9-]', '-', ...)`). -/
def isAllowedB (c : Char) : Bool := isLowerAlphaB c || isDigitB c || (c == '-')

/-- Model of Python `str.isalpha` on one character (ASCII letters; at every
use site the argument is drawn from `[a-z0-9-]`, where the two notions
agree). -/
def pyIsAlpha (c : Char) : Bool :=
  decide ((65 ≤ c.toNat ∧ c.toNat ≤ 90) ∨ (97 ≤ c.toNat ∧ c.toNat ≤ 122))

/-- Model of Python `str.isalnum` on one character (ASCII letters and
digits; at every use site the argument is drawn from `[a-z0-9-]`). -/
def pyIsAlnum (c : Char) : Bool := pyIsAlpha c || isDigitB c

/-- Model of Python `re.sub(r'-+', '-', s)`: collapse every run of hyphens
to a single hyphen (the survivor is the final hyphen of each run, which
yields the same string as keeping the first). -/
def collapseHyphens : List Char → List Char
  | [] => []
  | [c] => [c]
  | a :: b :: rest =>
    if a == '-' && b == '-' then collapseHyphens (b :: rest)
    else a :: collapseHyphens (b :: rest)

/-- Strip characters satisfying `p` from both ends of a list, the model of
Python `str.strip` with an explicit character class. -/
def stripBoth (p : Char → Bool) (l : List Char) : List Char :=
  ((l.dropWhile p).reverse.dropWhile p).reverse

/-- Last two statements of `_sanitize_job_name` (pipeline_utils.py lines
39–41): drop the final character when it is not alphanumeric, then truncate
to 63 characters. -/
def finishTail (s5 : List Char) : List Char :=
  (if pyIsAlnum (s5.getLastD ' ') then s5 else s5.dropLast).take 63

/-- The final statements of `_sanitize_job_name` (pipeline_utils.py lines
35–41), applied to the already lowered/replaced/collapsed/stripped name:
empty fallback (`job-` plus the random hex suffix, returned without
truncation), `job-` prepended when the first character is not a letter,
then `finishTail`. -/
def finishName (hex8 sanitized : List Char) : List Char :=
  if sanitized.isEmpty then str "job-" ++ hex8
  else finishTail (if pyIsAlpha (sanitized.headD ' ') then sanitized
                   else str "job-" ++ sanitized)

/-- Model of `_sanitize_job_name` from
`dataflow_agent/tools/pipeline_utils.py` (lines 15–41): lowercase, replace
every character outside `[a-z0-9-]` by `-`, collapse hyphen runs, strip
hyphens at both ends, then `finishName`.  The random fallback suffix
`uuid.uuid4().hex[:8]` is a parameter `hex8`; at runtime it is eight
lowercase hexadecimal characters. -/
def sanitize_job_name (hex8 : List Char) (name : List Char) : List Char :=
  finishName hex8 (stripBoth (fun c => c == '-')
    (collapseHyphens ((name.map pyLower).map
      (fun c => if isAllowedB c then c else '-'))))

/-- No two adjacent hyphens occur in the list. -/
def noRun : List Char → Bool
  | [] => true
  | [_] => true
  | a :: b :: rest => !(a == '-' && b == '-') && noRun (b :: rest)

/-- A name in the platform's job-name grammar, as produced by a completed
sanitizer pass: nonempty, drawn from `[a-z0-9-]`, no hyphen runs, first
character a letter, last character alphanumeric, at most 63 characters. -/
def canonicalName (l : List Char) : Bool :=
  !l.isEmpty && l.all isAllowedB && noRun l && pyIsAlpha (l.headD ' ') &&
    pyIsAlnum (l.getLastD ' ') && decide (l.length ≤ 63)

/-- The 64-character input `"aa" ++ "-a"*31`: already lowercase, in
`[a-z0-9-]`, run-free, hyphen-free at both ends, but one character over the
length cap with a hyphen in position 62. -/
def overlongAltName : List Char := str "aa" ++ (List.replicate 31 (str "-a")).flatten

/-- Suitability of the modelled random fallback suffix: nonempty, short
enough, lowercase alphanumeric (true of `uuid.uuid4().hex[:8]`). -/
def hexOKB (hex8 : List Char) : Bool :=
  !hex8.isEmpty && decide (hex8.length ≤ 59) &&
    hex8.all (fun c => isLowerAlphaB c || isDigitB c)

/-! ### Parameter validator (`validate_input_params`) -/

/-- The `template_definition` argument of `validate_input_params`
(dataflow_template_tools.py lines 40–87): a dictionary whose `required` and
`optional` keys each hold a list of parameter names; `none` models an
absent key, read through `.get(..., [])`. -/
structure TemplateParams where
  required : Option (List (List Char)) := none
  optional : Option (List (List Char)) := none

/-- The `comment` of a validation result, abstracted to the branch that
produced it together with the data interpolated into the source's f-string:
`Invalid param(s) passed: {invalid}. Valid params are: {allDefined}`,
`Missing required param(s): {missing}`, or `Validation Passed`. -/
inductive VComment where
  | invalidParams (invalid allDefined : List (List Char))
  | missingRequired (missing : List (List Char))
  | validationPassed
deriving DecidableEq

/-- The dictionary returned by `validate_input_params`: a
`validation_result` status string and a comment. -/
structure ValidationResult where
  validation_result : String
  comment : VComment
deriving DecidableEq

/-- Model of `validate_input_params` (dataflow_template_tools.py lines
40–87).  `user_inputs` is an association list; only its keys are read
(`user_inputs.keys()`).  The two set differences of the source are modelled
by `filter`, which has the same emptiness and membership behaviour.  The
source's `except` branch is unreachable for dictionary-shaped arguments and
has no counterpart here. -/
def validate_input_params (template_definition : TemplateParams)
    (user_inputs : List (List Char × List Char)) : ValidationResult :=
  let required_params := template_definition.required.getD []
  let optional_params := template_definition.optional.getD []
  let all_defined_params := required_params ++ optional_params
  let user_param_keys := user_inputs.map Prod.fst
  let invalid_params := user_param_keys.filter
    (fun k => !(all_defined_params.contains k))
  if invalid_params.isEmpty then
    let missing_required := required_params.filter
      (fun k => !(user_param_keys.contains k))
    if missing_required.isEmpty then
      ⟨"success", VComment.validationPassed⟩
    else ⟨"failed", VComment.missingRequired missing_required⟩
  else ⟨"failed", VComment.invalidParams invalid_params all_defined_params⟩

/-! ### Submit: template descriptor, flex detection, command construction -/

/-- A template descriptor as read by `submit_dataflow_template`
(dataflow_template_tools.py lines 264–311): dictionary keys
`template_gcs_path`, `type` and `params` accessed via `.get`; `none`
models an absent key. -/
structure TemplateDescriptor where
  template_gcs_path : Option (List Char) := none
  type : Option String := none
  params : Option TemplateParams := none

/-- The JSON value parsed from the `template_params` argument: either a
single descriptor dictionary or a list of them. -/
inductive TemplateDefJson where
  | dict (d : TemplateDescriptor)
  | list (ds : List TemplateDescriptor)

/-- Lines 269–270 of dataflow_template_tools.py: a template definition
wrapped in a non-empty list is unwrapped to its first element; an empty
list flows on and raises at the first attribute access (`none` here). -/
def first_template_definition : TemplateDefJson → Option TemplateDescriptor
  | TemplateDefJson.dict d => some d
  | TemplateDefJson.list (d :: _) => some d
  | TemplateDefJson.list [] => none

/-- Model of the command construction of `submit_dataflow_template`
(dataflow_template_tools.py lines 300–311): flex detection
(`"/flex/" in template_gcs_path or
template_definition_dict.get("type") == "FLEX"`) and the two `gcloud`
command strings built from it. -/
def buildRunCommand (job_name gcp_project region gcs_staging_location : List Char)
    (template_gcs_path : List Char) (ttype : Option String)
    (parameters_str : List Char) : List Char :=
  if decide ((str "/flex/") <:+: template_gcs_path) || (ttype == some "FLEX")
  then
    str "gcloud dataflow flex-template run " ++ job_name ++
      str " --project=" ++ gcp_project ++
      str " --region=" ++ region ++
      str " --template-file-gcs-location=" ++ template_gcs_path ++
      str " --parameters " ++ [dquote] ++ parameters_str ++ [dquote] ++
      str " --additional-user-labels=" ++ str "source=plumber"
  else
    str "gcloud dataflow jobs run " ++ job_name ++
      str " --project=" ++ gcp_project ++
      str " --region=" ++ region ++
      str " --gcs-location=" ++ template_gcs_path ++
      str " --parameters " ++ [dquote] ++ parameters_str ++ [dquote] ++
      str " --staging-location=" ++ gcs_staging_location ++
      str " --additional-user-labels=" ++ str "source=plumber"

/-- The observable shape of a Flex submission command: the
`gcloud dataflow flex-template run` invocation with a
`--template-file-gcs-location` flag. -/
def FlexShape (cmd : List Char) : Prop :=
  (str "gcloud dataflow flex-template run ") <+: cmd ∧
    (str "--template-file-gcs-location=") <:+: cmd

/-- The observable shape of a classic submission command: the
`gcloud dataflow jobs run` invocation with `--gcs-location` and
`--staging-location` flags. -/
def ClassicShape (cmd : List Char) : Prop :=
  (str "gcloud dataflow jobs run ") <+: cmd ∧
    (str " --gcs-location=") <:+: cmd ∧
    (str "--staging-location=") <:+: cmd

/-- Outcome of the pure portion of `submit_dataflow_template` before the
subprocess call (dataflow_template_tools.py lines 264–311).  Each `failed`
tag stands for the dictionary with that literal comment in the source; the
`runCommand` tag carries the `run_cmd` string handed to `subprocess.run`. -/
inductive SubmitPrep where
  | failed_attribute_error
  | failed_no_path
  | failed_missing_params_key
  | failed_validation (c : VComment)
  | runCommand (cmd : List Char)

/-- The `###`-joined, `^###^`-prefixed parameter string of lines 300–303:
`"^###^" + "###".join(f"{key}={value}" for key, value in user_input_dict)`. -/
def build_parameters_str (user_input_dict : List (List Char × List Char)) :
    List Char :=
  str "^###^" ++ (List.intercalate (str "###")
    (user_input_dict.map (fun kv => kv.1 ++ str "=" ++ kv.2)))

/-- Model of `submit_dataflow_template` (dataflow_template_tools.py lines
264–311) up to the subprocess call: list unwrapping, GCS-path resolution
(the custom path wins when non-empty, Python truthiness), validation
(skipped entirely when a custom path is supplied), parameter-string
construction and command construction. -/
def submit_dataflow_template_prep (job_name : List Char)
    (user_input_dict : List (List Char × List Char))
    (template_params : TemplateDefJson)
    (gcp_project region gcs_staging_location custom_gcs_path : List Char) :
    SubmitPrep :=
  match first_template_definition template_params with
  | none => SubmitPrep.failed_attribute_error
  | some template_definition_dict =>
    let path_opt : Option (List Char) :=
      if custom_gcs_path.isEmpty then template_definition_dict.template_gcs_path
      else some custom_gcs_path
    match path_opt with
    | none => SubmitPrep.failed_no_path
    | some template_gcs_path =>
      if template_gcs_path.isEmpty then SubmitPrep.failed_no_path
      else
        let validation : Option SubmitPrep :=
          if custom_gcs_path.isEmpty then
            match template_definition_dict.params with
            | none => some SubmitPrep.failed_missing_params_key
            | some ps =>
              let v := validate_input_params ps user_input_dict
              if v.validation_result = "success" then none
              else some (SubmitPrep.failed_validation v.comment)
          else none
        match validation with
        | some f => f
        | none =>
          SubmitPrep.runCommand (buildRunCommand job_name gcp_project region
            gcs_staging_location template_gcs_path
            template_definition_dict.type
            (build_parameters_str user_input_dict))

/-! ### Subprocess outcome of `submit_dataflow_template` -/

/-- A completed subprocess: exit code plus captured stdout and stderr
(`subprocess.run(..., capture_output=True, text=True, check=True,
shell=True)`). -/
structure CompletedProcess where
  returncode : Int
  stdout : List Char
  stderr : List Char

/-- The dictionary returned by `submit_dataflow_template` after the
subprocess call: `status`, the optional `stdout` key (present only on
success) and `comment`. -/
structure SubmitResult where
  status : String
  stdout : Option (List Char) := none
  comment : List Char

/-- Model of CPython's `subprocess.CalledProcessError.__str__`: names the
command and the exit status only — the captured stdout/stderr attributes
are not part of the message.  Negative return codes (signals) use the
unknown-signal fallback wording. -/
def calledProcessErrorStr (cmd : List Char) (returncode : Int) : List Char :=
  if returncode < 0 then
    str "Command " ++ [squote] ++ cmd ++ [squote] ++
      str " died with unknown signal " ++ str (toString (-returncode)) ++
      str "."
  else
    str "Command " ++ [squote] ++ cmd ++ [squote] ++
      str " returned non-zero exit status " ++ str (toString returncode) ++
      str "."

/-- Model of lines 313–317 of dataflow_template_tools.py: `check=True`
raises `CalledProcessError` on a non-zero exit, which the enclosing
`except Exception` converts to a failed dictionary whose comment is
`An unexpected error occurred: {str(err)}`; a zero exit returns the
success dictionary carrying the process stdout. -/
def submit_run_outcome (cmdText : List Char) (proc : CompletedProcess) :
    SubmitResult :=
  if proc.returncode ≠ 0 then
    { status := "failed",
      comment := str "An unexpected error occurred: " ++
        calledProcessErrorStr cmdText proc.returncode }
  else
    { status := "success", stdout := some proc.stdout,
      comment := str "Job Submitted Successfully" }

/-! ### Log query builders -/

/-- Modelled from the spec: `SEVERITIES_LIST` is imported from
`monitoring_agent/prompt.py`, which is not among the provided sources; the
spec fixes it as the ordered list INFO, DEFAULT, WARNING, NOTICE, DEBUG,
ERROR. -/
def SEVERITIES_LIST : List (List Char) :=
  [str "INFO", str "DEFAULT", str "WARNING", str "NOTICE", str "DEBUG",
    str "ERROR"]

/-- Model of the filter construction of `get_latest_resource_based_logs`
(monitoring_agent/tools/utils.py lines 191–198): start from the caller's
`resource` text, scan `SEVERITIES_LIST` in order, and on the first valid
severity token occurring in `severity.upper()` append `" AND {severity}"`
(the caller's raw text) and stop.  The result overwrites the
timestamp-bounded filter initialised at line 188. -/
def latest_logs_final_filter (resource severity : List Char) : List Char :=
  match SEVERITIES_LIST.find?
      (fun t => decide (t <:+: severity.map pyUpper)) with
  | some _ => resource ++ str " AND " ++ severity
  | none => resource

/-- The initial `filter_` value of line 188 of
monitoring_agent/tools/utils.py, overwritten at line 198:
`timestamp >= "{(datetime.now() - timedelta(days=90)).isoformat()}Z"`.
The rendered timestamp is the parameter `nowMinus90`. -/
def latest_logs_initial_filter (nowMinus90 : List Char) : List Char :=
  str "timestamp >= " ++ [dquote] ++ nowMinus90 ++ [dquote]

/-- Model of the filter construction of `get_dataproc_logs`
(monitoring_agent/tools/dataproc.py lines 133–137).  `nowMinus90` is the
rendered `(datetime.now() - timedelta(days=90)).isoformat()` text. -/
def get_dataproc_logs_filter (resource_name query_str label nowMinus90 :
    List Char) : List Char :=
  str "resource.type=" ++ [dquote] ++ resource_name ++ [dquote] ++
    str " AND resource.labels." ++ label ++ str "=" ++ [dquote] ++
    stripBoth Char.isWhitespace query_str ++ [dquote] ++
    str " AND timestamp >= " ++ [dquote] ++ nowMinus90 ++ str "Z" ++ [dquote]

/-- The log-collection loop shared by `get_dataproc_logs` (dataproc.py
lines 151–157) and `get_latest_resource_based_logs` (utils.py lines
205–211): number each entry, render it as `Entry {n}: {entry}`, and break
once the counter reaches the hard-coded 10. -/
def collect_loop (count : Nat) : List (List Char) → List (List Char)
  | [] => []
  | e :: rest =>
    (str "Entry " ++ str (toString (count + 1)) ++ str ": " ++ e) ::
      (if count + 1 ≥ 10 then [] else collect_loop (count + 1) rest)

/-- Entries collected by `get_dataproc_logs`: the backing
`client.list_entries(..., max_results=_limit)` iterator yields at most
`_limit` entries of the stream (modelled from the SDK contract as `take`),
and the loop consumes them with the hard-coded break at 10. -/
def get_dataproc_logs_collected (entries : List (List Char))
    (_limit : Nat) : List (List Char) :=
  collect_loop 0 (entries.take _limit)

/-- Entries collected by `get_latest_resource_based_logs`: same bounded
pull (`max_results=_limit`, page size 5) and the same loop with the
hard-coded break at 10. -/
def latest_resource_logs_collected (entries : List (List Char))
    (_limit : Nat) : List (List Char) :=
  collect_loop 0 (entries.take _limit)

theorem sanitize_probe :
    sanitize_job_name (str "deadbeef") (str "My Job!!") = str "my-job" := by
  decide

theorem hyphen_toNat : ('-' : Char).toNat = 45 := by decide

theorem allowed_ranges {c : Char} (h : isAllowedB c = true) :
    (97 ≤ c.toNat ∧ c.toNat ≤ 122) ∨ (48 ≤ c.toNat ∧ c.toNat ≤ 57) ∨ c = '-' := by
  simp only [isAllowedB, isLowerAlphaB, isDigitB, Bool.or_eq_true, decide_eq_true_eq,
    beq_iff_eq] at h
  tauto

theorem allowed_not_upper {c : Char} (h : isAllowedB c = true) :
    ¬ (65 ≤ c.toNat ∧ c.toNat ≤ 90) := by
  rcases allowed_ranges h with h' | h' | h'
  · omega
  · omega
  · subst h'; rw [hyphen_toNat]; omega

theorem pyLower_fix {c : Char} (h : isAllowedB c = true) : pyLower c = c := by
  simp [pyLower, allowed_not_upper h]

theorem pyIsAlpha_ne_hyphen {c : Char} (h : pyIsAlpha c = true) : ¬ c = '-' := by
  intro he
  subst he
  simp [pyIsAlpha] at h

theorem pyIsAlnum_ne_hyphen {c : Char} (h : pyIsAlnum c = true) : ¬ c = '-' := by
  intro he
  subst he
  simp [pyIsAlnum, pyIsAlpha, isDigitB] at h

theorem allowed_not_hyphen_alnum {c : Char} (ha : isAllowedB c = true)
    (hh : ¬ c = '-') : pyIsAlnum c = true := by
  rcases allowed_ranges ha with h' | h' | h'
  · simp only [pyIsAlnum, pyIsAlpha, Bool.or_eq_true, decide_eq_true_eq]
    left; right; exact h'
  · simp only [pyIsAlnum, isDigitB, Bool.or_eq_true, decide_eq_true_eq]
    right; exact h'
  · exact absurd h' hh

theorem lower_or_digit_allowed {c : Char}
    (h : (isLowerAlphaB c || isDigitB c) = true) : isAllowedB c = true := by
  simp only [isAllowedB, Bool.or_eq_true] at *
  tauto

theorem lower_or_digit_alnum {c : Char}
    (h : (isLowerAlphaB c || isDigitB c) = true) : pyIsAlnum c = true := by
  simp only [isLowerAlphaB, isDigitB, Bool.or_eq_true, decide_eq_true_eq] at h
  rcases h with h' | h'
  · simp only [pyIsAlnum, pyIsAlpha, Bool.or_eq_true, decide_eq_true_eq]
    left; right; exact h'
  · simp only [pyIsAlnum, isDigitB, Bool.or_eq_true, decide_eq_true_eq]
    right; exact h'

theorem lower_or_digit_not_hyphen {c : Char}
    (h : (isLowerAlphaB c || isDigitB c) = true) : (c == '-') = false := by
  have := pyIsAlnum_ne_hyphen (lower_or_digit_alnum h)
  simp [this]

/-! ### `noRun` lemmas -/

theorem noRun_tail {a : Char} {l : List Char} (h : noRun (a :: l) = true) :
    noRun l = true := by
  cases l with
  | nil => rfl
  | cons b t => simp only [noRun, Bool.and_eq_true] at h; exact h.2

theorem noRun_cons_of {a : Char} {l : List Char} (hl : noRun l = true)
    (hh : ∀ b, l.head? = some b → (a == '-' && b == '-') = false) :
    noRun (a :: l) = true := by
  cases l with
  | nil => rfl
  | cons b t =>
    simp only [noRun, Bool.and_eq_true]
    refine ⟨?_, hl⟩
    have := hh b rfl
    simp only [Bool.and_eq_false_iff, beq_eq_false_iff_ne, ne_eq] at this
    simp only [Bool.not_eq_true', Bool.and_eq_false_iff, beq_eq_false_iff_ne, ne_eq]
    exact this

theorem noRun_append_right {l₁ l₂ : List Char} (h : noRun (l₁ ++ l₂) = true) :
    noRun l₂ = true := by
  induction l₁ with
  | nil => exact h
  | cons a t ih => exact ih (noRun_tail h)

theorem noRun_append_left {l₁ l₂ : List Char} (h : noRun (l₁ ++ l₂) = true) :
    noRun l₁ = true := by
  induction l₁ with
  | nil => rfl
  | cons a t ih =>
    cases t with
    | nil => rfl
    | cons b u =>
      simp only [List.cons_append, noRun, Bool.and_eq_true] at h ⊢
      exact ⟨h.1, ih h.2⟩

theorem noRun_of_no_hyphen {l : List Char}
    (h : ∀ c ∈ l, (c == '-') = false) : noRun l = true := by
  induction l with
  | nil => rfl
  | cons a t ih =>
    refine noRun_cons_of (ih fun c hc => h c (List.mem_cons_of_mem a hc)) ?_
    intro b hb
    have : b ∈ t := by
      cases t with
      | nil => simp at hb
      | cons x u => simp at hb; simp [hb]
    rw [h b (List.mem_cons_of_mem a this)]
    simp

/-! ### `collapseHyphens` lemmas -/

theorem collapse_subset {l : List Char} {c : Char}
    (h : c ∈ collapseHyphens l) : c ∈ l := by
  induction l with
  | nil => simp [collapseHyphens] at h
  | cons a t ih =>
    cases t with
    | nil => simp [collapseHyphens] at h; simp [h]
    | cons b u =>
      simp only [collapseHyphens] at h
      by_cases hab : (a == '-' && b == '-') = true
      · rw [if_pos hab] at h
        exact List.mem_cons_of_mem a (ih h)
      · rw [if_neg hab] at h
        rcases List.mem_cons.mp h with h' | h'
        · exact h' ▸ List.mem_cons_self a _
        · exact List.mem_cons_of_mem a (ih h')

theorem collapse_head_hyphen :
    ∀ l : List Char, ((collapseHyphens l).headD ' ' = '-') ↔ (l.headD ' ' = '-')
  | [] => by simp [collapseHyphens]
  | [c] => by simp [collapseHyphens]
  | a :: b :: rest => by
    simp only [collapseHyphens]
    by_cases hab : (a == '-' && b == '-') = true
    · rw [if_pos hab]
      simp only [Bool.and_eq_true, beq_iff_eq] at hab
      rw [collapse_head_hyphen (b :: rest)]
      simp [hab.1, hab.2]
    · rw [if_neg hab]
      simp

theorem collapse_ne_nil {l : List Char} (h : l ≠ []) : collapseHyphens l ≠ [] := by
  cases l with
  | nil => exact absurd rfl h
  | cons a t =>
    cases t with
    | nil => simp [collapseHyphens]
    | cons b u =>
      simp only [collapseHyphens]
      by_cases hab : (a == '-' && b == '-') = true
      · rw [if_pos hab]; exact collapse_ne_nil (by simp)
      · rw [if_neg hab]; simp

theorem noRun_collapse : ∀ l : List Char, noRun (collapseHyphens l) = true
  | [] => rfl
  | [c] => rfl
  | a :: b :: rest => by
    simp only [collapseHyphens]
    by_cases hab : (a == '-' && b == '-') = true
    · rw [if_pos hab]
      exact noRun_collapse (b :: rest)
    · rw [if_neg hab]
      refine noRun_cons_of (noRun_collapse (b :: rest)) ?_
      intro x hx
      by_cases ha : a = '-'
      · have hb : ¬ b = '-' := by
          intro hb
          exact hab (by simp [ha, hb])
        have hx' : x = (collapseHyphens (b :: rest)).headD ' ' := by
          cases hc : collapseHyphens (b :: rest) with
          | nil => rw [hc] at hx; simp at hx
          | cons y t => rw [hc] at hx; simp at hx; simp [hc, hx]
        have : ¬ x = '-' := by
          rw [hx']
          intro hxx
          have hb' : (b :: rest).headD ' ' = '-' :=
            (collapse_head_hyphen (b :: rest)).mp hxx
          simp only [List.headD_cons] at hb'
          exact hb hb'
        simp [this]
      · simp [ha]

theorem collapse_self {l : List Char} (h : noRun l = true) :
    collapseHyphens l = l := by
  induction l with
  | nil => rfl
  | cons a t ih =>
    cases t with
    | nil => rfl
    | cons b u =>
      simp only [noRun, Bool.and_eq_true] at h
      simp only [collapseHyphens]
      have h1 := h.1
      rw [Bool.not_eq_true'] at h1
      rw [if_neg (by simp [h1]), ih h.2]

/-! ### `stripBoth` lemmas -/

theorem stripBoth_decomp (p : Char → Bool) (l : List Char) :
    ∃ u v, l = u ++ stripBoth p l ++ v := by
  obtain ⟨u, hu⟩ := List.dropWhile_suffix (l := l) p
  obtain ⟨w, hw⟩ := List.dropWhile_suffix (l := (l.dropWhile p).reverse) p
  refine ⟨u, w.reverse, ?_⟩
  have hd1 : l.dropWhile p = stripBoth p l ++ w.reverse := by
    have := congrArg List.reverse hw
    simpa [stripBoth] using this.symm
  rw [List.append_assoc, ← hd1, hu]

theorem stripBoth_subset {p : Char → Bool} {l : List Char} {c : Char}
    (h : c ∈ stripBoth p l) : c ∈ l := by
  obtain ⟨u, v, huv⟩ := stripBoth_decomp p l
  rw [huv]
  simp only [List.mem_append]
  exact Or.inl (Or.inr h)

theorem noRun_stripBoth {l : List Char} (h : noRun l = true) :
    noRun (stripBoth (fun c => c == '-') l) = true := by
  obtain ⟨u, v, huv⟩ := stripBoth_decomp (fun c => c == '-') l
  rw [huv] at h
  exact noRun_append_right (noRun_append_left h)

theorem stripBoth_headD_false (p : Char → Bool) (l : List Char)
    (h : stripBoth p l ≠ []) : p ((stripBoth p l).headD ' ') = false := by
  have hd2 : ((l.dropWhile p).reverse.dropWhile p) ≠ [] := by
    intro he
    exact h (by simp [stripBoth, he])
  have hh : (stripBoth p l).head? = ((l.dropWhile p).reverse.dropWhile p).getLast? := by
    simp [stripBoth]
  obtain ⟨w, hw⟩ := List.dropWhile_suffix (l := (l.dropWhile p).reverse) p
  obtain ⟨y, hy⟩ := Option.isSome_iff_exists.mp (List.getLast?_isSome.mpr hd2)
  have hlast : ((l.dropWhile p).reverse).getLast? = some y := by
    rw [← hw, List.getLast?_append, hy, Option.or_some]
  have hyhead : (l.dropWhile p).head? = some y := by
    rw [← List.getLast?_reverse, hlast]
  have hpy : p y = false := by
    have := List.head?_dropWhile_not p l
    rw [hyhead] at this
    exact this
  rw [List.headD_eq_head?_getD, hh, hy]
  exact hpy

theorem stripBoth_getLastD_false (p : Char → Bool) (l : List Char)
    (h : stripBoth p l ≠ []) : p ((stripBoth p l).getLastD ' ') = false := by
  have hd2 : ((l.dropWhile p).reverse.dropWhile p) ≠ [] := by
    intro he
    exact h (by simp [stripBoth, he])
  have hh : (stripBoth p l).getLast? = ((l.dropWhile p).reverse.dropWhile p).head? := by
    simp [stripBoth]
  obtain ⟨y, hy⟩ := Option.isSome_iff_exists.mp (List.head?_isSome.mpr hd2)
  have hpy : p y = false := by
    have := List.head?_dropWhile_not p ((l.dropWhile p).reverse)
    rw [hy] at this
    exact this
  rw [List.getLastD_eq_getLast?, hh, hy]
  exact hpy

theorem stripBoth_self (p : Char → Bool) (l : List Char)
    (hh : p (l.headD ' ') = false) (hl : p (l.getLastD ' ') = false)
    (hne : l ≠ []) : stripBoth p l = l := by
  have h1 : l.dropWhile p = l := by
    cases l with
    | nil => rfl
    | cons a t =>
      rw [List.dropWhile_cons, if_neg]
      simp only [List.headD_cons] at hh
      simp [hh]
  have h2 : l.reverse.dropWhile p = l.reverse := by
    cases hrev : l.reverse with
    | nil => rfl
    | cons a t =>
      have hgl : l.getLast? = some a := by
        have hh' : l.reverse.head? = some a := by rw [hrev]; rfl
        rwa [List.head?_reverse] at hh'
      have hpa : p a = false := by
        have hla : l.getLastD ' ' = a := by
          rw [List.getLastD_eq_getLast?, hgl]
          rfl
        rwa [hla] at hl
      rw [List.dropWhile_cons, if_neg (by simp [hpa])]
  simp [stripBoth, h1, h2]

/-! ### Fixpoint and canonicity of the sanitizer -/

theorem map_fix {f : Char → Char} {l : List Char} (h : ∀ c ∈ l, f c = c) :
    l.map f = l := by
  induction l with
  | nil => rfl
  | cons a t ih =>
    rw [List.map_cons, h a (List.mem_cons_self a t),
      ih fun c hc => h c (List.mem_cons_of_mem a hc)]

theorem getLastD_mem {l : List Char} (h : l ≠ []) (d : Char) :
    l.getLastD d ∈ l := by
  cases l with
  | nil => exact absurd rfl h
  | cons a t => rw [List.getLastD_cons]; exact List.getLastD_mem_cons t a

theorem sanitize_fix (hex8 : List Char) {l : List Char}
    (h : canonicalName l = true) : sanitize_job_name hex8 l = l := by
  simp only [canonicalName, Bool.and_eq_true, Bool.not_eq_true'] at h
  obtain ⟨⟨⟨⟨⟨hne, hall⟩, hnr⟩, hhead⟩, hlast⟩, hlen⟩ := h
  rw [decide_eq_true_eq] at hlen
  have hne' : l ≠ [] := by intro he; rw [he] at hne; simp at hne
  have hmem := List.all_eq_true.mp hall
  have h1 : l.map pyLower = l := map_fix fun c hc => pyLower_fix (hmem c hc)
  have h2 : l.map (fun c => if isAllowedB c then c else '-') = l :=
    map_fix fun c hc => by simp [hmem c hc]
  have h3 := collapse_self hnr
  have hhd_ne : ((l.headD ' ') == '-') = false := by
    rw [beq_eq_false_iff_ne]
    exact pyIsAlpha_ne_hyphen hhead
  have hls_ne : ((l.getLastD ' ') == '-') = false := by
    rw [beq_eq_false_iff_ne]
    exact pyIsAlnum_ne_hyphen hlast
  have h4 := stripBoth_self (fun c => c == '-') l hhd_ne hls_ne hne'
  rw [sanitize_job_name, h1, h2, h3, h4, finishName, if_neg (by simp [hne]),
    if_pos hhead, finishTail, if_pos hlast]
  exact List.take_of_length_le hlen

theorem take63_canonical (s : List Char) (hne : s ≠ [])
    (hall : ∀ c ∈ s, isAllowedB c = true) (hnr : noRun s = true)
    (hhd : pyIsAlpha (s.headD ' ') = true)
    (hfin : ¬ (s.take 63).getLastD ' ' = '-') :
    canonicalName (s.take 63) = true := by
  obtain ⟨y, m, rfl⟩ : ∃ y m, s = y :: m := by
    cases s with
    | nil => exact absurd rfl hne
    | cons y m => exact ⟨y, m, rfl⟩
  have hr : (y :: m).take 63 = y :: m.take 62 := List.take_succ_cons
  have hrne : (y :: m).take 63 ≠ [] := by rw [hr]; simp
  simp only [canonicalName, Bool.and_eq_true, Bool.not_eq_true']
  refine ⟨⟨⟨⟨⟨?_, ?_⟩, ?_⟩, ?_⟩, ?_⟩, ?_⟩
  · rw [hr]; rfl
  · exact List.all_eq_true.mpr fun c hc => hall c (List.mem_of_mem_take hc)
  · have := (List.take_append_drop 63 (y :: m)) ▸ hnr
    exact noRun_append_left this
  · rw [hr, List.headD_cons]
    rw [List.headD_cons] at hhd
    exact hhd
  · exact allowed_not_hyphen_alnum
      (hall _ (List.mem_of_mem_take (getLastD_mem hrne ' '))) hfin
  · rw [decide_eq_true_eq, List.length_take]
    exact Nat.min_le_left 63 _

theorem jobdash_chars : str "job-" = ['j', 'o', 'b', '-'] := rfl

theorem noRun_jobdash (l : List Char) (hl : noRun l = true)
    (hh : ∀ b, l.head? = some b → (b == '-') = false) :
    noRun (str "job-" ++ l) = true := by
  show noRun ('j' :: 'o' :: 'b' :: '-' :: l) = true
  have n1 : noRun ('-' :: l) = true := by
    refine noRun_cons_of hl fun b hb => ?_
    rw [hh b hb]
    simp
  simp only [noRun]
  rw [n1]
  decide

theorem jobdash_append_ne_nil (l : List Char) : str "job-" ++ l ≠ [] := by
  rw [jobdash_chars]
  simp

theorem jobdash_append_headD (l : List Char) :
    (str "job-" ++ l).headD ' ' = 'j' := by
  rw [jobdash_chars]
  rfl

theorem jobdash_append_getLastD (l : List Char) (h : l ≠ []) :
    (str "job-" ++ l).getLastD ' ' = l.getLastD ' ' := by
  obtain ⟨y, hy⟩ := Option.isSome_iff_exists.mp (List.getLast?_isSome.mpr h)
  rw [List.getLastD_eq_getLast?, List.getLast?_append, hy, Option.or_some,
    List.getLastD_eq_getLast?, hy]

theorem jobdash_append_all_allowed (l : List Char)
    (h : ∀ c ∈ l, isAllowedB c = true) :
    ∀ c ∈ str "job-" ++ l, isAllowedB c = true := by
  intro c hc
  rcases List.mem_append.mp hc with h' | h'
  · rw [jobdash_chars] at h'
    have : c = 'j' ∨ c = 'o' ∨ c = 'b' ∨ c = '-' := by simpa using h'
    rcases this with rfl | rfl | rfl | rfl <;> decide
  · exact h c h'

theorem finish_canonical (hex8 s4 : List Char)
    (hall : ∀ c ∈ s4, isAllowedB c = true)
    (hnr : noRun s4 = true)
    (hhd : s4 ≠ [] → ((s4.headD ' ') == '-') = false)
    (hlst : s4 ≠ [] → ((s4.getLastD ' ') == '-') = false)
    (hhex : hexOKB hex8 = true)
    (hfin : ¬ (finishName hex8 s4).getLastD ' ' = '-') :
    canonicalName (finishName hex8 s4) = true := by
  simp only [hexOKB, Bool.and_eq_true] at hhex
  obtain ⟨⟨hne8, hlen8⟩, hall8⟩ := hhex
  rw [Bool.not_eq_true'] at hne8
  rw [decide_eq_true_eq] at hlen8
  have hne8' : hex8 ≠ [] := by intro he; rw [he] at hne8; simp at hne8
  have hall8' := List.all_eq_true.mp hall8
  by_cases hemp : s4.isEmpty = true
  · have heq : finishName hex8 s4 = str "job-" ++ hex8 := by
      rw [finishName, if_pos hemp]
    rw [heq]
    simp only [canonicalName, Bool.and_eq_true, Bool.not_eq_true']
    refine ⟨⟨⟨⟨⟨?_, ?_⟩, ?_⟩, ?_⟩, ?_⟩, ?_⟩
    · rw [jobdash_chars]; rfl
    · exact List.all_eq_true.mpr (jobdash_append_all_allowed hex8
        fun c hc => lower_or_digit_allowed (hall8' c hc))
    · refine noRun_jobdash hex8
        (noRun_of_no_hyphen fun c hc => lower_or_digit_not_hyphen (hall8' c hc))
        fun b hb => lower_or_digit_not_hyphen
          (hall8' b (List.mem_of_mem_head? (Option.mem_def.mpr hb)))
    · rw [jobdash_append_headD]; decide
    · rw [jobdash_append_getLastD hex8 hne8']
      exact lower_or_digit_alnum (hall8' _ (getLastD_mem hne8' ' '))
    · rw [decide_eq_true_eq, jobdash_chars]
      simp only [List.length_append, List.length_cons, List.length_nil]
      omega
  · have hne4 : s4 ≠ [] := by intro he; rw [he] at hemp; exact hemp rfl
    have hhd4 := hhd hne4
    have hlst4 := hlst hne4
    have hls_alnum : pyIsAlnum (s4.getLastD ' ') = true :=
      allowed_not_hyphen_alnum (hall _ (getLastD_mem hne4 ' '))
        (beq_eq_false_iff_ne.mp hlst4)
    by_cases halpha : pyIsAlpha (s4.headD ' ') = true
    · have heq : finishName hex8 s4 = s4.take 63 := by
        rw [finishName, if_neg hemp, if_pos halpha, finishTail, if_pos hls_alnum]
      rw [heq] at hfin ⊢
      exact take63_canonical s4 hne4 hall hnr halpha hfin
    · have heq : finishName hex8 s4 = (str "job-" ++ s4).take 63 := by
        rw [finishName, if_neg hemp, if_neg halpha, finishTail,
          jobdash_append_getLastD s4 hne4, if_pos hls_alnum]
      rw [heq] at hfin ⊢
      refine take63_canonical (str "job-" ++ s4) (jobdash_append_ne_nil s4)
        (jobdash_append_all_allowed s4 hall) ?_ ?_ hfin
      · refine noRun_jobdash s4 hnr fun b hb => ?_
        have hb' : s4.headD ' ' = b := by
          rw [List.headD_eq_head?_getD, hb]
          rfl
        rw [← hb']
        exact hhd4
      · rw [jobdash_append_headD]; decide

theorem sanitize_canonical (hex8 name : List Char) (hhex : hexOKB hex8 = true)
    (hfin : ¬ (sanitize_job_name hex8 name).getLastD ' ' = '-') :
    canonicalName (sanitize_job_name hex8 name) = true := by
  rw [sanitize_job_name] at hfin ⊢
  refine finish_canonical hex8 _ ?_ ?_ ?_ ?_ hhex hfin
  · intro c hc
    have hc2 := collapse_subset (stripBoth_subset hc)
    obtain ⟨d, _, rfl⟩ := List.mem_map.mp hc2
    by_cases hd : isAllowedB d = true
    · rw [if_pos hd]; exact hd
    · rw [if_neg hd]; decide
  · exact noRun_stripBoth (noRun_collapse _)
  · intro hne
    have := stripBoth_headD_false (fun c => c == '-') _ hne
    simpa using this
  · intro hne
    have := stripBoth_getLastD_false (fun c => c == '-') _ hne
    simpa using this

/-! ### Validator lemmas -/

theorem filter_not_contains_isEmpty (keys alld : List (List Char)) :
    ((keys.filter (fun k => !(alld.contains k))).isEmpty = true) ↔
      ∀ k ∈ keys, k ∈ alld := by
  simp [List.isEmpty_iff, List.filter_eq_nil_iff, List.contains]

theorem validate_result_eq (td : TemplateParams)
    (ui : List (List Char × List Char)) :
    (validate_input_params td ui).validation_result =
      if (∀ k ∈ ui.map Prod.fst,
            k ∈ td.required.getD [] ++ td.optional.getD []) ∧
          (∀ r ∈ td.required.getD [], r ∈ ui.map Prod.fst)
      then "success" else "failed" := by
  simp only [validate_input_params]
  by_cases hI : ((ui.map Prod.fst).filter
      (fun k => !((td.required.getD [] ++ td.optional.getD []).contains k))).isEmpty = true
  · by_cases hM : ((td.required.getD []).filter
        (fun k => !((ui.map Prod.fst).contains k))).isEmpty = true
    · rw [if_pos hI, if_pos hM, if_pos ⟨(filter_not_contains_isEmpty _ _).mp hI,
        (filter_not_contains_isEmpty _ _).mp hM⟩]
    · rw [if_pos hI, if_neg hM, if_neg]
      intro hc
      exact hM ((filter_not_contains_isEmpty _ _).mpr hc.2)
  · rw [if_neg hI, if_neg]
    intro hc
    exact hI ((filter_not_contains_isEmpty _ _).mpr hc.1)

/-- Claim C1: for every template definition (`required`/`optional` lists,
missing treated as empty) and every user-inputs mapping,
`validate_input_params` returns a success result iff every user key is
among `required ++ optional` and every required key is supplied; otherwise
it returns a failed result, reporting the invalid keys (with the full valid
set) when any exist and the missing required keys otherwise. -/
theorem C1_validate_input_params_success_iff (td : TemplateParams)
    (ui : List (List Char × List Char)) :
    ((validate_input_params td ui).validation_result = "success" ↔
      ((∀ k ∈ ui.map Prod.fst,
          k ∈ td.required.getD [] ++ td.optional.getD []) ∧
        ∀ r ∈ td.required.getD [], r ∈ ui.map Prod.fst)) ∧
    ((∃ k ∈ ui.map Prod.fst,
        k ∉ td.required.getD [] ++ td.optional.getD []) →
      ∃ inv, inv ≠ [] ∧ validate_input_params td ui =
        ⟨"failed", VComment.invalidParams inv
          (td.required.getD [] ++ td.optional.getD [])⟩) ∧
    ((∀ k ∈ ui.map Prod.fst,
        k ∈ td.required.getD [] ++ td.optional.getD []) →
      (∃ r ∈ td.required.getD [], r ∉ ui.map Prod.fst) →
      ∃ mis, mis ≠ [] ∧ validate_input_params td ui =
        ⟨"failed", VComment.missingRequired mis⟩) := by
  refine ⟨?_, ?_, ?_⟩
  · rw [validate_result_eq]
    by_cases hc : (∀ k ∈ ui.map Prod.fst,
        k ∈ td.required.getD [] ++ td.optional.getD []) ∧
        ∀ r ∈ td.required.getD [], r ∈ ui.map Prod.fst
    · rw [if_pos hc]
      simpa using hc
    · rw [if_neg hc]
      constructor
      · intro h
        exact absurd h (by decide)
      · intro h
        exact absurd h hc
  · rintro ⟨k, hk, hkn⟩
    have hIne : ¬ ((ui.map Prod.fst).filter
        (fun k => !((td.required.getD [] ++ td.optional.getD []).contains k))).isEmpty = true := by
      intro hI
      exact hkn ((filter_not_contains_isEmpty _ _).mp hI k hk)
    refine ⟨(ui.map Prod.fst).filter
      (fun k => !((td.required.getD [] ++ td.optional.getD []).contains k)),
      ?_, ?_⟩
    · intro he
      exact hIne (by rw [he]; rfl)
    · simp only [validate_input_params]
      rw [if_neg hIne]
  · rintro hall ⟨r, hr, hrn⟩
    have hI : ((ui.map Prod.fst).filter
        (fun k => !((td.required.getD [] ++ td.optional.getD []).contains k))).isEmpty = true :=
      (filter_not_contains_isEmpty _ _).mpr hall
    have hMne : ¬ ((td.required.getD []).filter
        (fun k => !((ui.map Prod.fst).contains k))).isEmpty = true := by
      intro hM
      exact hrn ((filter_not_contains_isEmpty _ _).mp hM r hr)
    refine ⟨(td.required.getD []).filter
      (fun k => !((ui.map Prod.fst).contains k)), ?_, ?_⟩
    · intro he
      exact hMne (by rw [he]; rfl)
    · simp only [validate_input_params]
      rw [if_pos hI, if_neg hMne]

/-- Witness for C1: `required=["source","target"]`, `optional=["mode"]`,
inputs `{"source": "a", "target": "b"}` validate successfully. -/
theorem C1_witness :
    (validate_input_params
      ⟨some [str "source", str "target"], some [str "mode"]⟩
      [(str "source", str "a"), (str "target", str "b")]).validation_result
      = "success" :=
  (C1_validate_input_params_success_iff _ _).1.mpr (by decide)

/-- Claim C10: the validation status depends only on the set of user-input
keys, not on the associated values: two user-input mappings with equal key
sets yield equal `validation_result` fields. -/
theorem C10_validation_result_depends_only_on_keys (td : TemplateParams)
    (ui1 ui2 : List (List Char × List Char))
    (h : ∀ k, k ∈ ui1.map Prod.fst ↔ k ∈ ui2.map Prod.fst) :
    (validate_input_params td ui1).validation_result =
      (validate_input_params td ui2).validation_result := by
  rw [validate_result_eq, validate_result_eq]
  by_cases hc : (∀ k ∈ ui1.map Prod.fst,
      k ∈ td.required.getD [] ++ td.optional.getD []) ∧
      ∀ r ∈ td.required.getD [], r ∈ ui1.map Prod.fst
  · rw [if_pos hc, if_pos ⟨fun k hk => hc.1 k ((h k).mpr hk),
      fun r hr => (h r).mp (hc.2 r hr)⟩]
  · rw [if_neg hc, if_neg (fun hc2 => hc ⟨fun k hk => hc2.1 k ((h k).mp hk),
      fun r hr => (h r).mpr (hc2.2 r hr)⟩)]

/-- Witness for C10: two mappings with the same single key `source` but
different values produce the same validation status. -/
theorem C10_witness :
    (validate_input_params ⟨some [str "source"], none⟩
        [(str "source", str "a")]).validation_result =
      (validate_input_params ⟨some [str "source"], none⟩
        [(str "source", str "b")]).validation_result :=
  C10_validation_result_depends_only_on_keys _ _ _ (fun _ => Iff.rfl)

/-- Claim C2 (counterexample): the sanitizer is not idempotent.  On the
64-character run-free input `"aa" ++ "-a"*31` the first pass truncates to
63 characters ending in a hyphen, and the second pass strips that hyphen,
producing a different (62-character) string. -/
theorem C2_counterexample :
    sanitize_job_name (str "deadbeef")
        (sanitize_job_name (str "deadbeef") overlongAltName) ≠
      sanitize_job_name (str "deadbeef") overlongAltName := by
  decide

/-- Claim C2 (amended): the sanitizer is idempotent on every input whose
sanitized form does not end in a hyphen (the truncation to 63 characters is
the only step able to expose a trailing hyphen); the random fallback suffix
is assumed nonempty lowercase-alphanumeric, as `uuid4().hex[:8]` is. -/
theorem C2_sanitize_idempotent_unless_trailing_hyphen
    (hex8 name : List Char) (hhex : hexOKB hex8 = true)
    (hlast : ¬ (sanitize_job_name hex8 name).getLastD ' ' = '-') :
    sanitize_job_name hex8 (sanitize_job_name hex8 name) =
      sanitize_job_name hex8 name :=
  sanitize_fix hex8 (sanitize_canonical hex8 name hhex hlast)

/-- Witness for the amended C2: `"My Job!!"` sanitizes to `"my-job"`, and a
second pass leaves it unchanged. -/
theorem C2_witness :
    sanitize_job_name (str "deadbeef")
        (sanitize_job_name (str "deadbeef") (str "My Job!!")) =
      sanitize_job_name (str "deadbeef") (str "My Job!!") :=
  C2_sanitize_idempotent_unless_trailing_hyphen (str "deadbeef")
    (str "My Job!!") (by decide) (by decide)

/-- Claim C3 (code bug evaluation): on the 64-character input
`"aa" ++ "-a"*31` the sanitizer output has length 63 but ends in a hyphen,
violating the documented grammar `[a-z][a-z0-9-]*[a-z0-9]` (truncation to
63 happens after the trailing-character fix, re-exposing a hyphen). -/
theorem C3_output_ends_in_hyphen :
    (sanitize_job_name (str "deadbeef") overlongAltName).length = 63 ∧
      (sanitize_job_name (str "deadbeef") overlongAltName).getLastD ' ' = '-' := by
  decide

/-! ### Command shape lemmas -/

theorem prefix_extend {p t : List Char} (s : List Char) (h : p <+: t) :
    p <+: t ++ s :=
  h.trans (List.prefix_append t s)

theorem infix_extend_right {m t : List Char} (s : List Char)
    (h : m <:+: t) : m <:+: t ++ s :=
  h.trans (List.prefix_append t s).isInfix

theorem infix_extend_left {m t : List Char} (s : List Char)
    (h : m <:+: t) : m <:+: s ++ t :=
  h.trans (List.suffix_append s t).isInfix

/-- Claim C4: the submit operation builds the Flex command shape
(`gcloud dataflow flex-template run` with `--template-file-gcs-location`)
exactly when the resolved GCS path contains `/flex/` or the descriptor
declares `type == "FLEX"`; otherwise it builds the classic shape
(`gcloud dataflow jobs run` with `--gcs-location` and
`--staging-location`). -/
theorem C4_flex_detection (job_name gcp_project region gcs_staging_location
    template_gcs_path : List Char) (ttype : Option String)
    (parameters_str : List Char) :
    (((str "/flex/") <:+: template_gcs_path ∨ ttype = some "FLEX") →
      FlexShape (buildRunCommand job_name gcp_project region
        gcs_staging_location template_gcs_path ttype parameters_str) ∧
      ¬ ClassicShape (buildRunCommand job_name gcp_project region
        gcs_staging_location template_gcs_path ttype parameters_str)) ∧
    ((¬ ((str "/flex/") <:+: template_gcs_path ∨ ttype = some "FLEX")) →
      ClassicShape (buildRunCommand job_name gcp_project region
        gcs_staging_location template_gcs_path ttype parameters_str) ∧
      ¬ FlexShape (buildRunCommand job_name gcp_project region
        gcs_staging_location template_gcs_path ttype parameters_str)) := by
  constructor
  · intro hcond
    have hb : (decide ((str "/flex/") <:+: template_gcs_path)
        || (ttype == some "FLEX")) = true := by
      rcases hcond with h | h
      · simp [h]
      · simp [h]
    unfold buildRunCommand
    rw [if_pos hb]
    have hpre : (str "gcloud dataflow flex-template run ") <+:
        str "gcloud dataflow flex-template run " ++ job_name ++
        str " --project=" ++ gcp_project ++
        str " --region=" ++ region ++
        str " --template-file-gcs-location=" ++ template_gcs_path ++
        str " --parameters " ++ [dquote] ++ parameters_str ++ [dquote] ++
        str " --additional-user-labels=" ++ str "source=plumber" := by
      apply prefix_extend
      apply prefix_extend
      apply prefix_extend
      apply prefix_extend
      apply prefix_extend
      apply prefix_extend
      apply prefix_extend
      apply prefix_extend
      apply prefix_extend
      apply prefix_extend
      apply prefix_extend
      apply prefix_extend
      exact List.prefix_append _ _
    refine ⟨⟨hpre, ?_⟩, ?_⟩
    · apply infix_extend_right
      apply infix_extend_right
      apply infix_extend_right
      apply infix_extend_right
      apply infix_extend_right
      apply infix_extend_right
      apply infix_extend_right
      apply infix_extend_left
      decide
    · rintro ⟨hp, -⟩
      have hshort : (str "gcloud dataflow jobs run ") <+:
          (str "gcloud dataflow flex-template run ") :=
        List.prefix_of_prefix_length_le hp hpre (by decide)
      exact absurd hshort (by decide)
  · intro hcond
    have hb : (decide ((str "/flex/") <:+: template_gcs_path)
        || (ttype == some "FLEX")) = false := by
      rw [not_or] at hcond
      simp only [Bool.or_eq_false_iff, decide_eq_false_iff_not]
      exact ⟨hcond.1, by
        rw [beq_eq_false_iff_ne]
        exact hcond.2⟩
    unfold buildRunCommand
    rw [if_neg (by simp [hb])]
    have hpre : (str "gcloud dataflow jobs run ") <+:
        str "gcloud dataflow jobs run " ++ job_name ++
        str " --project=" ++ gcp_project ++
        str " --region=" ++ region ++
        str " --gcs-location=" ++ template_gcs_path ++
        str " --parameters " ++ [dquote] ++ parameters_str ++ [dquote] ++
        str " --staging-location=" ++ gcs_staging_location ++
        str " --additional-user-labels=" ++ str "source=plumber" := by
      apply prefix_extend
      apply prefix_extend
      apply prefix_extend
      apply prefix_extend
      apply prefix_extend
      apply prefix_extend
      apply prefix_extend
      apply prefix_extend
      apply prefix_extend
      apply prefix_extend
      apply prefix_extend
      apply prefix_extend
      apply prefix_extend
      apply prefix_extend
      exact List.prefix_append _ _
    refine ⟨⟨hpre, ?_, ?_⟩, ?_⟩
    · apply infix_extend_right
      apply infix_extend_right
      apply infix_extend_right
      apply infix_extend_right
      apply infix_extend_right
      apply infix_extend_right
      apply infix_extend_right
      apply infix_extend_right
      apply infix_extend_right
      apply infix_extend_left
      decide
    · apply infix_extend_right
      apply infix_extend_right
      apply infix_extend_right
      apply infix_extend_left
      decide
    · rintro ⟨hp, -⟩
      have hshort : (str "gcloud dataflow jobs run ") <+:
          (str "gcloud dataflow flex-template run ") :=
        List.prefix_of_prefix_length_le hpre hp (by decide)
      exact absurd hshort (by decide)

/-- Witness for C4: a path under `templates/flex/` with no `type` field
produces the Flex command shape and not the classic one. -/
theorem C4_witness :
    FlexShape (buildRunCommand (str "j") (str "p") (str "r") (str "s")
        (str "gs://bkt/templates/flex/Foo") none (str "^###^k=v")) ∧
      ¬ ClassicShape (buildRunCommand (str "j") (str "p") (str "r") (str "s")
        (str "gs://bkt/templates/flex/Foo") none (str "^###^k=v")) :=
  (C4_flex_detection (str "j") (str "p") (str "r") (str "s")
    (str "gs://bkt/templates/flex/Foo") none (str "^###^k=v")).1
    (Or.inl (by decide))

set_option maxRecDepth 8192 in
/-- Claim C8 (counterexample): at exit status 1 with stdout `OUT` and
stderr `ZZZZ`, the failure result carries neither: there is no stdout key
and the comment is only the exception text naming the command and the exit
status. -/
theorem C8_counterexample :
    (submit_run_outcome (str "gcloud dataflow jobs run j")
        ⟨1, str "OUT", str "ZZZZ"⟩).status = "failed" ∧
      (submit_run_outcome (str "gcloud dataflow jobs run j")
        ⟨1, str "OUT", str "ZZZZ"⟩).stdout = none ∧
      ¬ ((str "ZZZZ") <:+: (submit_run_outcome
        (str "gcloud dataflow jobs run j") ⟨1, str "OUT", str "ZZZZ"⟩).comment) ∧
      ¬ ((str "OUT") <:+: (submit_run_outcome
        (str "gcloud dataflow jobs run j") ⟨1, str "OUT", str "ZZZZ"⟩).comment) := by
  decide

/-- Claim C8 (amended): whenever the CLI exits non-zero the operation
returns a failure result — status `failed`, never `success` — whose
comment embeds the `CalledProcessError` text naming the executed command;
the non-zero exit is not silently swallowed, but the CLI's captured stdout
and stderr are not part of the failure result. -/
theorem C8_nonzero_exit_fails (cmdText : List Char) (proc : CompletedProcess)
    (h : proc.returncode ≠ 0) :
    (submit_run_outcome cmdText proc).status = "failed" ∧
      (submit_run_outcome cmdText proc).status ≠ "success" ∧
      cmdText <:+: (submit_run_outcome cmdText proc).comment ∧
      (submit_run_outcome cmdText proc).stdout = none := by
  unfold submit_run_outcome
  rw [if_pos h]
  refine ⟨rfl, (by decide : ("failed" : String) ≠ "success"), ?_, rfl⟩
  show cmdText <:+: str "An unexpected error occurred: " ++
    calledProcessErrorStr cmdText proc.returncode
  apply infix_extend_left
  unfold calledProcessErrorStr
  by_cases hneg : proc.returncode < 0
  · rw [if_pos hneg]
    apply infix_extend_right
    apply infix_extend_right
    apply infix_extend_right
    apply infix_extend_right
    exact (List.suffix_append _ _).isInfix
  · rw [if_neg hneg]
    apply infix_extend_right
    apply infix_extend_right
    apply infix_extend_right
    apply infix_extend_right
    exact (List.suffix_append _ _).isInfix

/-- Witness for the amended C8: a concrete non-zero exit produces a failed
result whose comment embeds the command. -/
theorem C8_witness :
    (submit_run_outcome (str "gcloud") ⟨1, str "o", str "e"⟩).status = "failed" ∧
      (submit_run_outcome (str "gcloud") ⟨1, str "o", str "e"⟩).status ≠ "success" ∧
      (str "gcloud") <:+:
        (submit_run_outcome (str "gcloud") ⟨1, str "o", str "e"⟩).comment ∧
      (submit_run_outcome (str "gcloud") ⟨1, str "o", str "e"⟩).stdout = none :=
  C8_nonzero_exit_fails (str "gcloud") ⟨1, str "o", str "e"⟩ (by decide)

/-- Claim C9: when the `template_params` JSON parses to a non-empty list,
the first element is used as the template descriptor for all subsequent
steps (path lookup, validation, flex detection) and the remaining elements
are ignored: the prepared outcome equals that of the first element alone. -/
theorem C9_first_list_element_used (job_name : List Char)
    (ui : List (List Char × List Char)) (d : TemplateDescriptor)
    (rest : List TemplateDescriptor)
    (gcp_project region gcs_staging_location custom_gcs_path : List Char) :
    submit_dataflow_template_prep job_name ui
        (TemplateDefJson.list (d :: rest)) gcp_project region
        gcs_staging_location custom_gcs_path =
      submit_dataflow_template_prep job_name ui (TemplateDefJson.dict d)
        gcp_project region gcs_staging_location custom_gcs_path := rfl

/-- Claim C5 (counterexample): with resource text `resource.type=x` and
severity text `ERROR` (which contains the valid token ERROR), the builder
appends ` AND ERROR` — the caller's raw text — and no clause of the form
`AND severity=ERROR` occurs in the produced filter. -/
theorem C5_counterexample :
    latest_logs_final_filter (str "resource.type=x") (str "ERROR") =
        str "resource.type=x AND ERROR" ∧
      ¬ ((str "AND severity=ERROR") <:+:
        latest_logs_final_filter (str "resource.type=x") (str "ERROR")) := by
  decide

/-- Claim C5 (amended): a clause of the exact form ` AND <provided text>`
(the raw caller text, not `severity=<matched token>`) is appended to the
filter iff the provided text contains one of the valid severity tokens as a
case-insensitive substring; otherwise the filter is the resource text
alone. -/
theorem C5_severity_clause (resource severity : List Char) :
    ((∃ t ∈ SEVERITIES_LIST, t <:+: severity.map pyUpper) →
      latest_logs_final_filter resource severity =
        resource ++ str " AND " ++ severity) ∧
    ((∀ t ∈ SEVERITIES_LIST, ¬ t <:+: severity.map pyUpper) →
      latest_logs_final_filter resource severity = resource) := by
  constructor
  · rintro ⟨t, ht, hinf⟩
    unfold latest_logs_final_filter
    have hsome : (SEVERITIES_LIST.find?
        (fun t => decide (t <:+: severity.map pyUpper))).isSome := by
      rw [List.find?_isSome]
      exact ⟨t, ht, by simpa using hinf⟩
    obtain ⟨u, hu⟩ := Option.isSome_iff_exists.mp hsome
    rw [hu]
  · intro h
    unfold latest_logs_final_filter
    have hnone : SEVERITIES_LIST.find?
        (fun t => decide (t <:+: severity.map pyUpper)) = none := by
      rw [List.find?_eq_none]
      intro t ht
      simpa using h t ht
    rw [hnone]

/-- Witness for the amended C5: `error please` contains the token ERROR
case-insensitively, so the raw text is appended after ` AND `. -/
theorem C5_witness :
    latest_logs_final_filter (str "resource.type=x") (str "error please") =
      str "resource.type=x" ++ str " AND " ++ str "error please" :=
  (C5_severity_clause (str "resource.type=x") (str "error please")).1
    ⟨str "ERROR", by decide, by decide⟩

/-- Claim C6 (code bug evaluation): the dataproc builder's filter always
carries the `timestamp >= ` lower bound, but the final filter of
`get_latest_resource_based_logs` contains no timestamp clause at all — the
timestamp-bounded filter initialised at line 188 (which does carry it) is
overwritten at line 198 by the resource/severity filter. -/
theorem C6_timestamp_clause_lost :
    (∀ resource_name query_str label nowMinus90 : List Char,
      (str "timestamp >= ") <:+:
        get_dataproc_logs_filter resource_name query_str label nowMinus90) ∧
      (str "timestamp >= ") <:+:
        latest_logs_initial_filter (str "2025-07-14T00:00:00") ∧
      latest_logs_final_filter (str "resource.type=gce_instance") (str "") =
        str "resource.type=gce_instance" ∧
      ¬ ((str "timestamp") <:+:
        latest_logs_final_filter (str "resource.type=gce_instance") (str "")) := by
  refine ⟨?_, by decide, by decide, by decide⟩
  intro resource_name query_str label nowMinus90
  unfold get_dataproc_logs_filter
  apply infix_extend_right
  apply infix_extend_right
  apply infix_extend_right
  apply infix_extend_right
  apply infix_extend_left
  decide

/-- Length of the collection loop: one entry per iteration, stopping at the
hard-coded bound of 10. -/
theorem collect_loop_length (l : List (List Char)) :
    ∀ count, count < 10 →
      (collect_loop count l).length = min l.length (10 - count) := by
  induction l with
  | nil =>
    intro count h
    simp [collect_loop]
  | cons e rest ih =>
    intro count h
    simp only [collect_loop]
    by_cases h10 : count + 1 ≥ 10
    · rw [if_pos h10]
      simp only [List.length_cons, List.length_nil]
      omega
    · rw [if_neg h10]
      simp only [List.length_cons]
      rw [ih (count + 1) (by omega)]
      omega

/-- Claim C7 (amended): both log fetchers return exactly
`min (min limit available) 10` entries — never more than the caller's
limit (enforced by `max_results` on the bounded pull) and never more than
the hard-coded 10 of the loop break; iteration stops at the smaller of the
two bounds even when more entries are available. -/
theorem C7_collected_length (entries : List (List Char)) (lim : Nat) :
    (get_dataproc_logs_collected entries lim).length =
        min (min lim entries.length) 10 ∧
      (get_dataproc_logs_collected entries lim).length ≤ lim ∧
      (latest_resource_logs_collected entries lim).length =
        min (min lim entries.length) 10 ∧
      (latest_resource_logs_collected entries lim).length ≤ lim := by
  have h := collect_loop_length (entries.take lim) 0 (by omega)
  rw [List.length_take] at h
  unfold get_dataproc_logs_collected latest_resource_logs_collected
  refine ⟨?_, ?_, ?_, ?_⟩ <;> rw [h] <;> omega

/-- Claim C7 (counterexample): with 15 entries available and limit 12,
iteration does not stop at the caller-supplied limit: 10 entries come
back. -/
theorem C7_counterexample :
    (get_dataproc_logs_collected (List.replicate 15 (str "x")) 12).length
        = 10 ∧
      (get_dataproc_logs_collected (List.replicate 15 (str "x")) 12).length
        ≠ 12 := by
  decide
